import Mathlib

/-!
SalesManagement: the `/comments` CRUD service (`main.go`).

A shallow embedding of `main.go`.  The program is glue between three
libraries (`net/http`, `encoding/json`, `mgo`), so the embedding has two
layers:

* what the libraries return to the program is an input of the model
  (`Env`): the result of decoding the body, the id `bson.NewObjectId`
  hands out, the clock, driver failures, the outcome of writing the JSON
  answer;
* what the calls do to the outside is explicit state (`World`): the
  documents of `commentsapp.comments`, its indexes, the open session
  handles and the log of driver calls; plus the `ResponseWriter`.

Every handler of `main.go` is a Lean function of the same name.
-/

namespace SalesManagement

/-! ## Data model -/

/-- `bson.ObjectId`: a Go string of raw bytes (12 of them when produced by
`bson.NewObjectId`, none for the zero value). -/
abbrev ObjectId := List Nat

/-- `time.Time`, as an instant counted from the zero `time.Time`. -/
abbrev Time := Int

/-- `type comment struct` (main.go 61-68).  `Price` is a `float32`; no
arithmetic is done on it, it is carried as the number it denotes. -/
structure comment where
  ID : ObjectId
  Name : String
  Category : String
  Price : Rat
  Update : Time
  Quantity : Int
deriving DecidableEq

/-- The zero value of `comment` (`var c comment`). -/
def comment.zero : comment := ⟨[], "", "", 0, 0, 0⟩

/-! ## bson.ObjectId helpers -/

/-- The table `hextable` of `encoding/hex`. -/
def hextable : String := "0123456789abcdef"

/-- One lower-case hexadecimal digit: the low nibble of `n`. -/
def hexDigit (n : Nat) : Char := hextable.data.getD (n % 16) '0'

/-- Two hexadecimal digits per byte, high nibble first. -/
def hexChars : List Nat → List Char
  | [] => []
  | b :: bs => hexDigit (b / 16) :: hexDigit b :: hexChars bs

/-- `ObjectId.Hex()`: the hex encoding of the id's bytes. -/
def Hex (id : ObjectId) : String := String.mk (hexChars id)

/-- `ObjectId.String()`: the form `ObjectIdHex("...")`. -/
def ObjectIdString (id : ObjectId) : String := "ObjectIdHex(\"" ++ Hex id ++ "\")"

/-! ## net/http: the response writer -/

/-- What is written to the response body. -/
inductive Chunk where
  | text (s : String)
  | json (cs : List comment)
deriving DecidableEq

/-- The observable state of an `http.ResponseWriter`: the status line once
it is written, the `Location` header, and the body written so far. -/
structure ResponseWriter where
  status : Option Nat
  location : Option String
  body : List Chunk
deriving DecidableEq

/-- A writer nothing has been written to. -/
def ResponseWriter.fresh : ResponseWriter := ⟨none, none, []⟩

/-- `w.WriteHeader(code)`: the first status written is the one sent. -/
def WriteHeader (w : ResponseWriter) (code : Nat) : ResponseWriter :=
  match w.status with
  | some _ => w
  | none => { w with status := some code }

/-- `w.Write(...)`: writes the status 200 first when none was written. -/
def Write (w : ResponseWriter) (c : Chunk) : ResponseWriter :=
  let w1 := WriteHeader w 200
  { w1 with body := w1.body ++ [c] }

/-- `http.Error(w, msg, code)`: status `code`, then the message and a newline. -/
def httpError (w : ResponseWriter) (msg : String) (code : Nat) : ResponseWriter :=
  Write (WriteHeader w code) (Chunk.text (msg ++ "\n"))

/-- `http.Redirect(w, r, url, code)`: the `Location` header, then the status.
(A header set after the status line is not sent.  The HTML note Redirect
adds to GET answers is left out: the handlers redirect on POST, PUT and
DELETE.) -/
def httpRedirect (w : ResponseWriter) (url : String) (code : Nat) : ResponseWriter :=
  match w.status with
  | some _ => w
  | none => WriteHeader { w with location := some url } code

/-! ## mgo: sessions, the collection, the driver calls -/

/-- A `*mgo.Session`, named by the number of its handle. -/
structure Session where
  handle : Nat
deriving DecidableEq

/-- The driver calls the program makes. -/
inductive Call where
  | copy (src new : Session)
  | close (s : Session)
  | insert (s : Session) (doc : comment)
  | find (s : Session) (selector : Option ObjectId) (sort : String) (limit : Nat)
  | update (s : Session) (selector doc : comment)
  | dropIndexName (s : Session) (name : String)
deriving DecidableEq

/-- A call on the collection, as opposed to the session life cycle. -/
def Call.isStorage : Call → Bool
  | .copy _ _ => false
  | .close _ => false
  | _ => true

/-- Everything outside the process that the program acts on. -/
structure World where
  /-- documents of `commentsapp.comments`, in natural order -/
  comments : List comment
  /-- names of the indexes of the collection -/
  indexes : List String
  /-- session handles that are open -/
  live : List Session
  /-- number of the next handle the driver hands out -/
  next : Nat
  /-- driver calls made so far, oldest first -/
  calls : List Call
deriving DecidableEq

/-- How the lookup of `handleUpdate` (main.go 126-130) can end as the
program is written: `All` returns, with `s` as it left it and the error the
program drops, or it panics. -/
inductive LookupOutcome where
  | returned (s : comment) (err : Option String)
  | panicked (msg : String)

/-- How `json.NewEncoder(w).Encode(comments)` ended. -/
inductive EncodeOutcome where
  | ok
  | marshalError (err : String)
  | writeError (err : String)

/-- What the libraries hand to the program while one request is served. -/
structure Env where
  /-- `json.NewDecoder(r.Body).Decode(&c)` on a zero `comment` -/
  decode : String → Except String comment
  /-- the id `bson.NewObjectId()` returns -/
  NewObjectId : ObjectId
  /-- the instant `time.Now()` returns -/
  Now : Time
  /-- a failure the driver reports for a call (connection lost, ...) -/
  fault : Call → Option String
  /-- writing the JSON answer -/
  encode : List comment → EncodeOutcome

/-! ### Sorting and limiting a query -/

/-- A BSON value a field of a stored comment can hold. -/
inductive Key where
  | num (q : Rat)
  | str (s : String)
  | oid (b : List Nat)
  | date (t : Int)
deriving DecidableEq

/-- The field of the stored document with that name, by the `bson:"..."`
tags of `comment`; `none` when the document has no such field. -/
def bsonField (c : comment) (name : String) : Option Key :=
  if name = "_id" then some (Key.oid c.ID)
  else if name = "name" then some (Key.str c.Name)
  else if name = "category" then some (Key.str c.Category)
  else if name = "price" then some (Key.num c.Price)
  else if name = "update" then some (Key.date c.Update)
  else if name = "quantity" then some (Key.num c.Quantity)
  else none

/-- Position of a value's type in MongoDB's comparison order; a missing
field sorts as null, before everything else. -/
def keyRank : Option Key → Nat
  | none => 0
  | some (Key.num _) => 1
  | some (Key.str _) => 2
  | some (Key.oid _) => 3
  | some (Key.date _) => 4

/-- Byte-wise comparison of two ids. -/
def lexLt : List Nat → List Nat → Bool
  | [], [] => false
  | [], _ :: _ => true
  | _ :: _, [] => false
  | a :: as, b :: bs => if a < b then true else if b < a then false else lexLt as bs

/-- Strict comparison of two sort keys. -/
def keyLt (a b : Option Key) : Bool :=
  match a, b with
  | some (Key.num x), some (Key.num y) => decide (x < y)
  | some (Key.str x), some (Key.str y) => decide (x < y)
  | some (Key.oid x), some (Key.oid y) => lexLt x y
  | some (Key.date x), some (Key.date y) => decide (x < y)
  | _, _ => decide (keyRank a < keyRank b)

/-- `Sort(field)`: a leading `-` asks for descending order. -/
def sortSpec (field : String) : Bool × String :=
  match field.data with
  | '-' :: rest => (true, String.mk rest)
  | '+' :: rest => (false, String.mk rest)
  | _ => (false, field)

/-- Must `a` come strictly before `b` in the order `Sort(field)` asks for. -/
def sortsBefore (field : String) (a b : comment) : Bool :=
  let spec := sortSpec field
  if spec.1 then keyLt (bsonField b spec.2) (bsonField a spec.2)
  else keyLt (bsonField a spec.2) (bsonField b spec.2)

/-- Insert `x`, which precedes all of the list in natural order, into the
sorted list: documents with equal keys keep their natural order. -/
def sortInsert (field : String) (x : comment) : List comment → List comment
  | [] => [x]
  | y :: ys => if sortsBefore field y x then y :: sortInsert field x ys else x :: y :: ys

/-- The documents in the order `Sort(field)` returns them. -/
def sortDocs (field : String) : List comment → List comment
  | [] => []
  | x :: xs => sortInsert field x (sortDocs field xs)

/-- `Find(selector)`: `nil` selects every document, an id those with that `_id`. -/
def selects (selector : Option ObjectId) (c : comment) : Bool :=
  match selector with
  | none => true
  | some id => decide (c.ID = id)

/-- `Limit(n)`: at most `n` documents; 0 means no limit. -/
def limitDocs (n : Nat) (cs : List comment) : List comment :=
  if n = 0 then cs else cs.take n

/-- The documents `Find(selector).Sort(field).Limit(n)` yields. -/
def runFind (docs : List comment) (selector : Option ObjectId) (field : String) (n : Nat) :
    List comment :=
  limitDocs n (sortDocs field (docs.filter (selects selector)))

/-! ### The calls -/

/-- Append a call to the log. -/
def World.logged (world : World) (c : Call) : World :=
  { world with calls := world.calls ++ [c] }

/-- `db.Copy()`: a new handle, open, distinct from all earlier ones. -/
def Copy (db : Session) (world : World) : Session × World :=
  let s : Session := ⟨world.next⟩
  (s, { world with live := world.live ++ [s], next := world.next + 1,
                   calls := world.calls ++ [Call.copy db s] })

/-- `s.Close()`. -/
def Close (s : Session) (world : World) : World :=
  { world with live := world.live.erase s, calls := world.calls ++ [Call.close s] }

/-- `C("comments").Insert(&c)`: refused when the `_id` is already stored. -/
def Insert (env : Env) (db : Session) (c : comment) (world : World) : Option String × World :=
  let world1 := world.logged (Call.insert db c)
  match env.fault (Call.insert db c) with
  | some err => (some err, world1)
  | none =>
    if world.comments.any (fun d => decide (d.ID = c.ID)) then
      (some "E11000 duplicate key error", world1)
    else (none, { world1 with comments := world.comments ++ [c] })

/-- `Find(nil).Sort(field).Limit(n).All(&comments)`. -/
def FindAll (env : Env) (db : Session) (field : String) (n : Nat) (world : World) :
    Except String (List comment) × World :=
  let world1 := world.logged (Call.find db none field n)
  match env.fault (Call.find db none field n) with
  | some err => (Except.error err, world1)
  | none => (Except.ok (runFind world.comments none field n), world1)

/-- Replace the first document equal to `selector` by `doc`. -/
def replaceFirst (selector doc : comment) : List comment → Option (List comment)
  | [] => none
  | d :: ds =>
    if d = selector then some (doc :: ds)
    else (replaceFirst selector doc ds).map (fun r => d :: r)

/-- `C("comments").Update(&s, &c)`: the selector is a whole `comment`, so it
matches the documents equal to it field by field; no match is an error, and
the server refuses a replacement that changes the `_id`. -/
def Update (env : Env) (db : Session) (selector doc : comment) (world : World) :
    Option String × World :=
  let world1 := world.logged (Call.update db selector doc)
  match env.fault (Call.update db selector doc) with
  | some err => (some err, world1)
  | none =>
    match replaceFirst selector doc world.comments with
    | none => (some "not found", world1)
    | some docs =>
      if doc.ID = selector.ID then (none, { world1 with comments := docs })
      else (some "the _id field cannot be changed", world1)

/-- `Find(id).Sort("-when").Limit(1).All(&s)` with `s` a single `comment`
(main.go 126-128): `All` takes the address of a slice, and panics on any
other argument before it reads a document. -/
def AllIntoStruct (_docs : List comment) (_id : ObjectId) : LookupOutcome :=
  LookupOutcome.panicked "result argument must be a slice address"

/-- `C("comments").DropIndexName(name)`: removes an index, never a document. -/
def DropIndexName (env : Env) (db : Session) (name : String) (world : World) :
    Option String × World :=
  let world1 := world.logged (Call.dropIndexName db name)
  match env.fault (Call.dropIndexName db name) with
  | some err => (some err, world1)
  | none =>
    if name ∈ world.indexes then (none, { world1 with indexes := world.indexes.erase name })
    else (some "index not found", world1)

/-! ## The program -/

/-- An `*http.Request`: method, body, and the values gorilla/context holds
for it (only sessions are ever stored). -/
structure Request where
  Method : String
  Body : String
  context : String → Option Session

/-- `context.Set(r, key, val)`. -/
def contextSet (r : Request) (key : String) (val : Session) : Request :=
  { r with context := fun k => if k = key then some val else r.context k }

/-- How a call of a handler ends: the response written, the world it leaves,
and the panic it ended with, if any. -/
structure Result where
  w : ResponseWriter
  world : World
  panic : Option String

/-- An `http.Handler`. -/
abbrev Handler := ResponseWriter → Request → World → Result

/-- `type Adapter func(http.Handler) http.Handler` (main.go 37). -/
abbrev Adapter := Handler → Handler

/-- The panic of `context.Get(r, "database").(*mgo.Session)` when the key
holds nothing. -/
def nilSession : String := "interface conversion: interface is nil, not *mgo.Session"

/-- `func Adapt` (main.go 39-44): the loop over `adapters`. -/
def Adapt (h : Handler) : List Adapter → Handler
  | [] => h
  | adapter :: rest => Adapt (adapter h) rest

/-- `func handleInsert` (main.go 70-92). -/
def handleInsert (env : Env) : Handler := fun w r world =>
  match r.context "database" with
  | none => ⟨w, world, some nilSession⟩
  | some db =>
    match env.decode r.Body with
    | Except.error err => ⟨httpError w err 400, world, none⟩
    | Except.ok c0 =>
      let c : comment := { c0 with ID := env.NewObjectId, Update := env.Now }
      match Insert env db c world with
      | (some err, world1) => ⟨httpError w err 400, world1, none⟩
      | (none, world1) => ⟨httpRedirect w ("/comments/" ++ Hex c.ID) 307, world1, none⟩

/-- `func handleRead` (main.go 93-110). -/
def handleRead (env : Env) : Handler := fun w r world =>
  match r.context "database" with
  | none => ⟨w, world, some nilSession⟩
  | some db =>
    match FindAll env db "-when" 100 world with
    | (Except.error err, world1) => ⟨httpError w err 500, world1, none⟩
    | (Except.ok comments, world1) =>
      match env.encode comments with
      | EncodeOutcome.ok => ⟨Write w (Chunk.json comments), world1, none⟩
      | EncodeOutcome.marshalError err => ⟨httpError w err 500, world1, none⟩
      | EncodeOutcome.writeError err => ⟨httpError (WriteHeader w 200) err 500, world1, none⟩

/-- `func handleUpdate` (main.go 112-140). -/
def handleUpdate (env : Env) : Handler := fun w r world =>
  match r.context "database" with
  | none => ⟨w, world, some nilSession⟩
  | some db =>
    match env.decode r.Body with
    | Except.error err => ⟨httpError w err 400, world, none⟩
    | Except.ok c0 =>
      let c : comment := { c0 with ID := env.NewObjectId, Update := env.Now }
      let world1 := world.logged (Call.find db (some c.ID) "-when" 1)
      match AllIntoStruct world.comments c.ID with
      | LookupOutcome.panicked msg => ⟨w, world1, some msg⟩
      | LookupOutcome.returned s _ =>
        match Update env db s c world1 with
        | (some err, world2) => ⟨httpError w err 400, world2, none⟩
        | (none, world2) => ⟨httpRedirect w ("/comments/" ++ Hex c.ID) 307, world2, none⟩

/-- `func handleDelete` (main.go 142-164). -/
def handleDelete (env : Env) : Handler := fun w r world =>
  match r.context "database" with
  | none => ⟨w, world, some nilSession⟩
  | some db =>
    match env.decode r.Body with
    | Except.error err => ⟨httpError w err 400, world, none⟩
    | Except.ok c0 =>
      let c : comment := { c0 with ID := env.NewObjectId, Update := env.Now }
      match DropIndexName env db (ObjectIdString c.ID) world with
      | (some err, world1) => ⟨httpError w err 400, world1, none⟩
      | (none, world1) => ⟨httpRedirect w ("/comments/" ++ Hex c.ID) 307, world1, none⟩

/-- `func handle` (main.go 46-59): the switch on `r.Method`. -/
def handle (env : Env) : Handler := fun w r world =>
  if r.Method = "GET" then handleRead env w r world
  else if r.Method = "POST" then handleInsert env w r world
  else if r.Method = "PUT" then handleUpdate env w r world
  else if r.Method = "DELETE" then handleDelete env w r world
  else ⟨httpError w "Not supported" 405, world, none⟩

/-- `func withDB` (main.go 165-185).  The deferred `dbsession.Close()` runs
when `h` returns and when `h` panics; the panic then goes on to the caller. -/
def withDB (db : Session) : Adapter := fun h => fun w r world =>
  let copied := Copy db world
  let dbsession := copied.1
  let res := h w (contextSet r "database" dbsession) copied.2
  { res with world := Close dbsession res.world }

/-- `h := Adapt(http.HandlerFunc(handle), withDB(db))` (main.go 25). -/
def serve (env : Env) (db : Session) : Handler := Adapt (handle env) [withDB db]

/-- A handler that leaves the session handles alone: it opens and closes
none, and the driver calls it makes are calls on the collection. -/
def KeepsSessions (h : Handler) : Prop :=
  ∀ w r x, (h w r x).world.live = x.live ∧
    ∃ cs, (h w r x).world.calls = x.calls ++ cs ∧ ∀ c ∈ cs, c.isStorage = true

/-! ## Sample data -/

/-- An id as `bson.NewObjectId` makes them: 12 bytes. -/
def sampleId : ObjectId := [88, 161, 12, 7, 50, 9, 200, 31, 4, 0, 0, 1]

/-- An id a client sent along. -/
def clientId : ObjectId := [1, 2, 3, 4, 5, 6, 7, 8, 9, 10, 11, 12]

/-- The comment written first. -/
def older : comment := ⟨[80, 0, 0, 0, 0, 0, 0, 0, 0, 0, 0, 1], "pen", "office", 3 / 2, 100, 2⟩

/-- The comment written last. -/
def newer : comment := ⟨[80, 0, 0, 0, 0, 0, 0, 0, 0, 0, 0, 2], "ink", "office", 4, 200, 1⟩

/-- A collection of two comments, the older one stored first, between two
requests: only the session of `main` is open. -/
def idleWorld : World := ⟨[older, newer], ["_id_"], [⟨0⟩], 1, []⟩

/-- The same collection while a request is served: the session of `main` and
the copy made for the request are open. -/
def sampleWorld : World := ⟨[older, newer], ["_id_"], [⟨0⟩, ⟨1⟩], 2, []⟩

/-- The body `{"name":"cup","category":"kitchen","price":2.5,"quantity":3}`. -/
def plainBody : String :=
  "\x7b\"name\":\"cup\",\"category\":\"kitchen\",\"price\":2.5,\"quantity\":3\x7d"

/-- The same body with an id and an update of the client's:
`{"id":"0102030405060708090a0b0c","name":"cup","category":"kitchen",`
`"price":2.5,"update":"0001-01-01T00:00:00.000000077Z","quantity":3}`. -/
def stampedBody : String :=
  "\x7b\"id\":\"0102030405060708090a0b0c\",\"name\":\"cup\",\"category\":\"kitchen\"," ++
  "\"price\":2.5,\"update\":\"0001-01-01T00:00:00.000000077Z\",\"quantity\":3\x7d"

/-- The same body with a number where the id goes:
`{"id":7,"name":"cup","category":"kitchen","price":2.5,"quantity":3}`. -/
def numberIdBody : String :=
  "\x7b\"id\":7,\"name\":\"cup\",\"category\":\"kitchen\",\"price\":2.5,\"quantity\":3\x7d"

/-- A body that is cut off: `{"name":`. -/
def cutBody : String := "\x7b\"name\":"

/-- What `encoding/json` answers for the sample bodies when it fills a
`comment`: `ID` is a `bson.ObjectId` and `Update` a `time.Time` (main.go 62,
66), so the 24 hex digits and the RFC 3339 instant of `stampedBody` are
taken, and the number 7 of `numberIdBody`, which is no ObjectId, makes
`Decode` fail, as does the cut-off text.  Other bodies are not sampled. -/
def sampleDecode (body : String) : Except String comment :=
  if body = plainBody then Except.ok ⟨[], "cup", "kitchen", 5 / 2, 0, 3⟩
  else if body = stampedBody then Except.ok ⟨clientId, "cup", "kitchen", 5 / 2, 77, 3⟩
  else if body = numberIdBody then Except.error "invalid ObjectId in JSON: 7"
  else if body = cutBody then Except.error "unexpected EOF"
  else Except.error "not a sample body"

/-- Libraries that do not fail on their own: the decoder of the sample
bodies and a driver without faults. -/
def sampleEnv : Env where
  decode := sampleDecode
  NewObjectId := sampleId
  Now := 1000
  fault := fun _ => none
  encode := fun _ => EncodeOutcome.ok

/-- A request that went through withDB: its context holds the copy made for
it, session 1. -/
def sampleRequest (method body : String) : Request :=
  ⟨method, body, fun k => if k = "database" then some ⟨1⟩ else none⟩


/-! # Theorems -/

/-! ## Adapt -/

theorem Adapt_append (xs ys : List Adapter) (h : Handler) :
    Adapt h (xs ++ ys) = Adapt (Adapt h xs) ys := by
  induction xs generalizing h with
  | nil => rfl
  | cons a rest ih => exact ih (a h)

theorem Adapt_foldl (xs : List Adapter) (h : Handler) :
    Adapt h xs = xs.foldl (fun g a => a g) h := by
  induction xs generalizing h with
  | nil => rfl
  | cons a rest ih => exact ih (a h)

/-- C10: Adapt folds the adapters over the handler from the left: the first
adapter listed is applied first (innermost), the last one last (outermost);
without adapters the handler is returned as it is, and adapting twice is
adapting once with the concatenated list. -/
theorem Adapt_left_fold (h : Handler) (a1 a2 a3 : Adapter) (xs ys : List Adapter) :
    Adapt h [] = h ∧
    Adapt h xs = xs.foldl (fun g a => a g) h ∧
    Adapt h [a1, a2, a3] = a3 (a2 (a1 h)) ∧
    Adapt h (a1 :: xs) = Adapt (a1 h) xs ∧
    Adapt h (xs ++ [a1]) = a1 (Adapt h xs) ∧
    Adapt (Adapt h xs) ys = Adapt h (xs ++ ys) := by
  refine ⟨rfl, Adapt_foldl xs h, rfl, rfl, ?_, (Adapt_append xs ys h).symm⟩
  rw [Adapt_append]
  rfl

/-! ## The dispatcher -/

/-- C1: handle hands the request to the one handler of its method (GET to
handleRead, POST to handleInsert, PUT to handleUpdate, DELETE to
handleDelete); for every other method string it calls none of them, answers
405 "Not supported", makes no driver call and leaves the world as it was. -/
theorem handle_dispatch (env : Env) (w : ResponseWriter) (r : Request) (world : World) :
    (r.Method = "GET" → handle env w r world = handleRead env w r world) ∧
    (r.Method = "POST" → handle env w r world = handleInsert env w r world) ∧
    (r.Method = "PUT" → handle env w r world = handleUpdate env w r world) ∧
    (r.Method = "DELETE" → handle env w r world = handleDelete env w r world) ∧
    (r.Method ∉ ["GET", "POST", "PUT", "DELETE"] →
      handle env w r world = ⟨httpError w "Not supported" 405, world, none⟩ ∧
      (handle env ResponseWriter.fresh r world).w.status = some 405 ∧
      (handle env ResponseWriter.fresh r world).w.body = [Chunk.text "Not supported\n"] ∧
      (handle env w r world).world = world ∧
      (handle env w r world).world.calls = world.calls ∧
      (handle env w r world).world.comments = world.comments ∧
      (handle env w r world).panic = none) ∧
    (∀ m ∈ ["PATCH", "HEAD", "get", ""],
      (handle env ResponseWriter.fresh { r with Method := m } world).w.status = some 405 ∧
      (handle env ResponseWriter.fresh { r with Method := m } world).world = world) := by
  refine ⟨?_, ?_, ?_, ?_, ?_, ?_⟩
  · intro h; simp [handle, h]
  · intro h; simp [handle, h]
  · intro h; simp [handle, h]
  · intro h; simp [handle, h]
  · intro h
    simp only [List.mem_cons, List.mem_singleton, List.not_mem_nil, or_false, not_or] at h
    obtain ⟨h1, h2, h3, h4⟩ := h
    simp [handle, h1, h2, h3, h4, httpError, Write, WriteHeader, ResponseWriter.fresh]
  · intro m hm
    simp only [List.mem_cons, List.mem_singleton, List.not_mem_nil, or_false] at hm
    rcases hm with rfl | rfl | rfl | rfl <;>
      simp [handle, httpError, Write, WriteHeader, ResponseWriter.fresh]

/-! ## Facts about the library models -/

theorem hexChars_length (id : List Nat) : (hexChars id).length = 2 * id.length := by
  induction id with
  | nil => rfl
  | cons b bs ih => simp [hexChars, ih]; omega

theorem Hex_length (id : ObjectId) : (Hex id).length = 2 * id.length := by
  simp [Hex, String.length, hexChars_length]

theorem httpError_fresh (msg : String) (code : Nat) :
    httpError ResponseWriter.fresh msg code = ⟨some code, none, [Chunk.text (msg ++ "\n")]⟩ := by
  simp [httpError, Write, WriteHeader, ResponseWriter.fresh]

theorem httpRedirect_fresh (url : String) (code : Nat) :
    httpRedirect ResponseWriter.fresh url code = ⟨some code, some url, []⟩ := by
  simp [httpRedirect, WriteHeader, ResponseWriter.fresh]

theorem contextSet_get (r : Request) (key : String) (s : Session) :
    (contextSet r key s).context key = some s := by
  simp [contextSet]

theorem serve_eq (env : Env) (db : Session) (w : ResponseWriter) (r : Request) (world : World) :
    serve env db w r world =
      { handle env w (contextSet r "database" ⟨world.next⟩) (Copy db world).2 with
        world := Close ⟨world.next⟩
          (handle env w (contextSet r "database" ⟨world.next⟩) (Copy db world).2).world } := by
  simp [serve, Adapt, withDB, Copy]

/-! ## Decode failures -/

/-- C2: when the body does not decode, handleInsert, handleUpdate and
handleDelete each answer 400 with the decode error message and return
without a driver call: the world, its documents and its call log are as
before.  Served through withDB (POST, PUT, DELETE), the same answer is given
and the only calls are the copy and the close of the request's session. -/
theorem decode_failure_rejected (env : Env) (w : ResponseWriter) (r : Request) (world : World)
    (db : Session) (msg : String)
    (hctx : r.context "database" = some db)
    (hdec : env.decode r.Body = Except.error msg) :
    (∀ h ∈ [handleInsert env, handleUpdate env, handleDelete env],
      h w r world = ⟨httpError w msg 400, world, none⟩ ∧
      (h ResponseWriter.fresh r world).w.status = some 400 ∧
      (h ResponseWriter.fresh r world).w.body = [Chunk.text (msg ++ "\n")] ∧
      (h ResponseWriter.fresh r world).w.location = none ∧
      (h w r world).world.comments = world.comments ∧
      (h w r world).world.calls = world.calls) ∧
    (∀ m ∈ ["POST", "PUT", "DELETE"], ∀ main : Session,
      (serve env main ResponseWriter.fresh { r with Method := m } world).w.status = some 400 ∧
      (serve env main ResponseWriter.fresh { r with Method := m } world).w.body
        = [Chunk.text (msg ++ "\n")] ∧
      (serve env main ResponseWriter.fresh { r with Method := m } world).world.comments
        = world.comments ∧
      (serve env main ResponseWriter.fresh { r with Method := m } world).world.calls
        = world.calls ++ [Call.copy main ⟨world.next⟩, Call.close ⟨world.next⟩]) := by
  constructor
  · intro h hh
    simp only [List.mem_cons, List.mem_singleton, List.not_mem_nil, or_false] at hh
    rcases hh with rfl | rfl | rfl
    · simp [handleInsert, hctx, hdec, httpError_fresh]
    · simp [handleUpdate, hctx, hdec, httpError_fresh]
    · simp [handleDelete, hctx, hdec, httpError_fresh]
  · intro m hm main
    simp only [List.mem_cons, List.mem_singleton, List.not_mem_nil, or_false] at hm
    rcases hm with rfl | rfl | rfl
    · simp [serve_eq, handle, handleInsert, contextSet, hdec, httpError_fresh, Copy, Close]
    · simp [serve_eq, handle, handleUpdate, contextSet, hdec, httpError_fresh, Copy, Close]
    · simp [serve_eq, handle, handleDelete, contextSet, hdec, httpError_fresh, Copy, Close]

/-! ## Create -/

theorem Insert_calls (env : Env) (db : Session) (c : comment) (world : World) :
    (Insert env db c world).2.calls = world.calls ++ [Call.insert db c] := by
  unfold Insert
  cases env.fault (Call.insert db c) <;> simp [World.logged]
  split <;> rfl

theorem Insert_ok (env : Env) (db : Session) (c : comment) (world : World)
    (h : (Insert env db c world).1 = none) :
    (Insert env db c world).2.comments = world.comments ++ [c] := by
  unfold Insert at h ⊢
  cases hf : env.fault (Call.insert db c) with
  | some e => simp [hf] at h
  | none =>
    by_cases hd : (world.comments.any fun d => decide (d.ID = c.ID)) = true
    · simp [hf, hd] at h
    · simp [hf, hd]

theorem Insert_error (env : Env) (db : Session) (c : comment) (world : World) (err : String)
    (h : (Insert env db c world).1 = some err) :
    (Insert env db c world).2.comments = world.comments := by
  unfold Insert at h ⊢
  cases hf : env.fault (Call.insert db c) with
  | some e => simp [hf, World.logged]
  | none =>
    by_cases hd : (world.comments.any fun d => decide (d.ID = c.ID)) = true
    · simp [hf, hd, World.logged]
    · simp [hf, hd] at h

theorem handleInsert_decoded (env : Env) (w : ResponseWriter) (r : Request) (world : World)
    (db : Session) (c0 : comment)
    (hctx : r.context "database" = some db) (hdec : env.decode r.Body = Except.ok c0) :
    handleInsert env w r world =
      match (Insert env db ⟨env.NewObjectId, c0.Name, c0.Category, c0.Price, env.Now,
        c0.Quantity⟩ world).1 with
      | some err => ⟨httpError w err 400, (Insert env db ⟨env.NewObjectId, c0.Name, c0.Category,
          c0.Price, env.Now, c0.Quantity⟩ world).2, none⟩
      | none => ⟨httpRedirect w ("/comments/" ++ Hex env.NewObjectId) 307,
          (Insert env db ⟨env.NewObjectId, c0.Name, c0.Category, c0.Price, env.Now,
            c0.Quantity⟩ world).2, none⟩ := by
  simp only [handleInsert, hctx, hdec]
  rcases hI : Insert env db ⟨env.NewObjectId, c0.Name, c0.Category, c0.Price, env.Now,
    c0.Quantity⟩ world with ⟨o, world1⟩
  cases o <;> rfl

/-- C3: for a body that decodes, handleInsert makes exactly one driver call,
the insert of the record with the generated id, the current time and the
body's name, category, price and quantity.  When the insert succeeds the
record is appended to the collection and the answer is 307 with Location
"/comments/" followed by the 24 hex digits of the generated id; when it fails
the answer is 400 with the driver's message, no Location, and the collection
is unchanged. -/
theorem handleInsert_spec (env : Env) (r : Request) (world : World) (db : Session)
    (c0 : comment)
    (hctx : r.context "database" = some db)
    (hdec : env.decode r.Body = Except.ok c0)
    (hlen : env.NewObjectId.length = 12) :
    (handleInsert env ResponseWriter.fresh r world).world.calls = world.calls ++
      [Call.insert db ⟨env.NewObjectId, c0.Name, c0.Category, c0.Price, env.Now, c0.Quantity⟩] ∧
    (handleInsert env ResponseWriter.fresh r world).panic = none ∧
    ((Insert env db ⟨env.NewObjectId, c0.Name, c0.Category, c0.Price, env.Now, c0.Quantity⟩
        world).1 = none →
      (handleInsert env ResponseWriter.fresh r world).w =
        ⟨some 307, some ("/comments/" ++ Hex env.NewObjectId), []⟩ ∧
      (Hex env.NewObjectId).length = 24 ∧
      (handleInsert env ResponseWriter.fresh r world).world.comments = world.comments ++
        [⟨env.NewObjectId, c0.Name, c0.Category, c0.Price, env.Now, c0.Quantity⟩]) ∧
    (∀ err, (Insert env db ⟨env.NewObjectId, c0.Name, c0.Category, c0.Price, env.Now,
        c0.Quantity⟩ world).1 = some err →
      (handleInsert env ResponseWriter.fresh r world).w =
        ⟨some 400, none, [Chunk.text (err ++ "\n")]⟩ ∧
      (handleInsert env ResponseWriter.fresh r world).world.comments = world.comments) := by
  rw [handleInsert_decoded env _ r world db c0 hctx hdec]
  refine ⟨?_, ?_, ?_, ?_⟩
  · have := Insert_calls env db ⟨env.NewObjectId, c0.Name, c0.Category, c0.Price, env.Now,
      c0.Quantity⟩ world
    split <;> simpa using this
  · split <;> rfl
  · intro h
    have hc := Insert_ok env db _ world h
    simp only [h]
    exact ⟨httpRedirect_fresh _ _, by rw [Hex_length, hlen], hc⟩
  · intro err h
    have hc := Insert_error env db _ world err h
    simp only [h]
    exact ⟨httpError_fresh _ _, hc⟩

/-- C4, amended: handleInsert does not depend on the id and update a body
decoded to: two bodies that both decode, to comments with the same name,
category, price and quantity, get the same result (response and world) under
the same generated id and clock; the one record inserted carries the
generated id and the clock's time, and replacing the decoded id and update by
any other values changes nothing.  A body the decoder refuses, whatever the
member it refuses it for, is answered 400 and nothing is inserted. -/
theorem handleInsert_ignores_id_update (env : Env) (w : ResponseWriter) (r1 r2 : Request)
    (world : World) (db : Session) (c1 c2 : comment)
    (hctx1 : r1.context "database" = some db) (hctx2 : r2.context "database" = some db)
    (hdec1 : env.decode r1.Body = Except.ok c1) (hdec2 : env.decode r2.Body = Except.ok c2)
    (hname : c1.Name = c2.Name) (hcat : c1.Category = c2.Category)
    (hprice : c1.Price = c2.Price) (hqty : c1.Quantity = c2.Quantity) :
    handleInsert env w r1 world = handleInsert env w r2 world ∧
    (handleInsert env w r1 world).world.calls = world.calls ++
      [Call.insert db ⟨env.NewObjectId, c2.Name, c2.Category, c2.Price, env.Now, c2.Quantity⟩] ∧
    (∀ d ∈ (handleInsert env w r1 world).world.comments,
      d ∈ world.comments ∨
      d = ⟨env.NewObjectId, c1.Name, c1.Category, c1.Price, env.Now, c1.Quantity⟩) ∧
    (∀ (id : ObjectId) (update : Time),
      handleInsert { env with decode := fun _ => Except.ok { c1 with ID := id, Update := update } }
        w r1 world = handleInsert env w r1 world) ∧
    (∀ r msg, r.context "database" = some db → env.decode r.Body = Except.error msg →
      handleInsert env ResponseWriter.fresh r world =
        ⟨⟨some 400, none, [Chunk.text (msg ++ "\n")]⟩, world, none⟩) := by
  have e1 := handleInsert_decoded env w r1 world db c1 hctx1 hdec1
  have e2 := handleInsert_decoded env w r2 world db c2 hctx2 hdec2
  rw [hname, hcat, hprice, hqty] at e1
  refine ⟨e1.trans e2.symm, ?_, ?_, ?_, ?_⟩
  rotate_left 3
  · intro r msg hctx hdec
    simp [handleInsert, hctx, hdec, httpError_fresh]
  · rw [e1]
    have := Insert_calls env db ⟨env.NewObjectId, c2.Name, c2.Category, c2.Price, env.Now,
      c2.Quantity⟩ world
    split <;> simpa using this
  · intro d hd
    rw [e1] at hd
    rw [hname, hcat, hprice, hqty]
    cases hI : (Insert env db ⟨env.NewObjectId, c2.Name, c2.Category, c2.Price, env.Now,
      c2.Quantity⟩ world).1 with
    | none =>
      have hc := Insert_ok env db _ world hI
      simp only [hI, hc, List.mem_append, List.mem_singleton] at hd
      exact hd
    | some err =>
      have hc := Insert_error env db _ world err hI
      simp only [hI, hc] at hd
      exact Or.inl hd
  · intro id update
    have e3 := handleInsert_decoded
      { env with decode := fun _ => Except.ok { c1 with ID := id, Update := update } }
      w r1 world db { c1 with ID := id, Update := update } hctx1 rfl
    rw [e1, e3]
    simp only [hname, hcat, hprice, hqty]
    rfl

/-! ## Delete -/

theorem DropIndexName_frame (env : Env) (db : Session) (name : String) (world : World) :
    (DropIndexName env db name world).2.comments = world.comments ∧
    (DropIndexName env db name world).2.calls = world.calls ++ [Call.dropIndexName db name] ∧
    (DropIndexName env db name world).2.live = world.live := by
  unfold DropIndexName
  cases env.fault (Call.dropIndexName db name) with
  | some e => simp [World.logged]
  | none => by_cases hn : name ∈ world.indexes <;> simp [hn, World.logged]

theorem handleDelete_decoded (env : Env) (w : ResponseWriter) (r : Request) (world : World)
    (db : Session) (c0 : comment)
    (hctx : r.context "database" = some db) (hdec : env.decode r.Body = Except.ok c0) :
    handleDelete env w r world =
      match (DropIndexName env db (ObjectIdString env.NewObjectId) world).1 with
      | some err => ⟨httpError w err 400,
          (DropIndexName env db (ObjectIdString env.NewObjectId) world).2, none⟩
      | none => ⟨httpRedirect w ("/comments/" ++ Hex env.NewObjectId) 307,
          (DropIndexName env db (ObjectIdString env.NewObjectId) world).2, none⟩ := by
  simp only [handleDelete, hctx, hdec]
  rcases hI : DropIndexName env db (ObjectIdString env.NewObjectId) world with ⟨o, world1⟩
  cases o <;> rfl

theorem handleDelete_comments (env : Env) (w : ResponseWriter) (r : Request) (world : World) :
    (handleDelete env w r world).world.comments = world.comments := by
  cases hctx : r.context "database" with
  | none => simp [handleDelete, hctx]
  | some db =>
    cases hdec : env.decode r.Body with
    | error e => simp [handleDelete, hctx, hdec]
    | ok c0 =>
      rw [handleDelete_decoded env w r world db c0 hctx hdec]
      have := (DropIndexName_frame env db (ObjectIdString env.NewObjectId) world).1
      split <;> simpa using this

/-- C9: handleDelete never removes a record: whatever the request, the
documents of the collection are the same after it as before.  For a body that
decodes, the only driver call is one DropIndexName whose argument is the
string form of the generated id (the id the body decoded to is not used); the
answer is 307 with Location "/comments/" and the hex form of the generated id
when that call succeeds, and 400 with the driver's message when it fails. -/
theorem handleDelete_spec (env : Env) (r : Request) (world : World) :
    (∀ w, (handleDelete env w r world).world.comments = world.comments) ∧
    (∀ db c0, r.context "database" = some db → env.decode r.Body = Except.ok c0 →
      (handleDelete env ResponseWriter.fresh r world).world.calls = world.calls ++
        [Call.dropIndexName db (ObjectIdString env.NewObjectId)] ∧
      ObjectIdString env.NewObjectId = "ObjectIdHex(\"" ++ Hex env.NewObjectId ++ "\")" ∧
      (handleDelete env ResponseWriter.fresh r world).panic = none ∧
      ((DropIndexName env db (ObjectIdString env.NewObjectId) world).1 = none →
        (handleDelete env ResponseWriter.fresh r world).w =
          ⟨some 307, some ("/comments/" ++ Hex env.NewObjectId), []⟩) ∧
      (∀ err, (DropIndexName env db (ObjectIdString env.NewObjectId) world).1 = some err →
        (handleDelete env ResponseWriter.fresh r world).w =
          ⟨some 400, none, [Chunk.text (err ++ "\n")]⟩) ∧
      (∀ id update, handleDelete
          { env with decode := fun _ => Except.ok { c0 with ID := id, Update := update } }
          ResponseWriter.fresh r world = handleDelete env ResponseWriter.fresh r world)) := by
  refine ⟨fun w => handleDelete_comments env w r world, ?_⟩
  intro db c0 hctx hdec
  have e3 : ∀ id update, handleDelete
      { env with decode := fun _ => Except.ok { c0 with ID := id, Update := update } }
      ResponseWriter.fresh r world = handleDelete env ResponseWriter.fresh r world := by
    intro id update
    have e4 := handleDelete_decoded
      { env with decode := fun _ => Except.ok { c0 with ID := id, Update := update } }
      ResponseWriter.fresh r world db { c0 with ID := id, Update := update } hctx rfl
    rw [handleDelete_decoded env _ r world db c0 hctx hdec, e4]
    rfl
  refine ⟨?_, rfl, ?_, ?_, ?_, e3⟩
  · rw [handleDelete_decoded env _ r world db c0 hctx hdec]
    have := (DropIndexName_frame env db (ObjectIdString env.NewObjectId) world).2.1
    split <;> simpa using this
  · rw [handleDelete_decoded env _ r world db c0 hctx hdec]
    split <;> rfl
  · intro h
    rw [handleDelete_decoded env _ r world db c0 hctx hdec]
    simp only [h]
    exact httpRedirect_fresh _ _
  · intro err h
    rw [handleDelete_decoded env _ r world db c0 hctx hdec]
    simp only [h]
    exact httpError_fresh _ _

/-! ## Update -/

theorem handleUpdate_decoded (env : Env) (w : ResponseWriter) (r : Request) (world : World)
    (db : Session) (c0 : comment)
    (hctx : r.context "database" = some db) (hdec : env.decode r.Body = Except.ok c0) :
    handleUpdate env w r world =
      ⟨w, world.logged (Call.find db (some env.NewObjectId) "-when" 1),
        some "result argument must be a slice address"⟩ := by
  simp [handleUpdate, hctx, hdec, AllIntoStruct]

/-- C8, the code at a failing input: a PUT whose body decodes.  handleUpdate
hands the address of the single comment s to All, which takes the address of
a slice and panics: the handler ends in that panic with nothing written, no
status (neither 307 nor 400) and no Location, and the replace call is never
made.  So it is for every body that decodes, in every world; served through
withDB the request's session is still closed and the panic goes on to the
server.  Only a body that does not decode gets an answer, 400. -/
theorem handleUpdate_panics_at_failing_input :
    handleUpdate sampleEnv ResponseWriter.fresh (sampleRequest "PUT" plainBody) sampleWorld =
      ⟨ResponseWriter.fresh, sampleWorld.logged (Call.find ⟨1⟩ (some sampleId) "-when" 1),
        some "result argument must be a slice address"⟩ ∧
    (handleUpdate sampleEnv ResponseWriter.fresh (sampleRequest "PUT" plainBody)
      sampleWorld).w.status = none ∧
    (handleUpdate sampleEnv ResponseWriter.fresh (sampleRequest "PUT" plainBody)
      sampleWorld).world.calls = [Call.find ⟨1⟩ (some sampleId) "-when" 1] ∧
    (handleUpdate sampleEnv ResponseWriter.fresh (sampleRequest "PUT" plainBody)
      sampleWorld).world.comments = [older, newer] ∧
    (serve sampleEnv ⟨0⟩ ResponseWriter.fresh ⟨"PUT", plainBody, fun _ => none⟩ idleWorld).w
      = ResponseWriter.fresh ∧
    (serve sampleEnv ⟨0⟩ ResponseWriter.fresh ⟨"PUT", plainBody, fun _ => none⟩ idleWorld).panic
      = some "result argument must be a slice address" ∧
    (serve sampleEnv ⟨0⟩ ResponseWriter.fresh ⟨"PUT", plainBody, fun _ => none⟩
      idleWorld).world.calls =
        [Call.copy ⟨0⟩ ⟨1⟩, Call.find ⟨1⟩ (some sampleId) "-when" 1, Call.close ⟨1⟩] ∧
    (∀ (env : Env) (r : Request) (world : World) (db : Session) (c0 : comment),
      r.context "database" = some db → env.decode r.Body = Except.ok c0 →
      (handleUpdate env ResponseWriter.fresh r world).w.status = none ∧
      (handleUpdate env ResponseWriter.fresh r world).w.location = none ∧
      (handleUpdate env ResponseWriter.fresh r world).panic =
        some "result argument must be a slice address" ∧
      (handleUpdate env ResponseWriter.fresh r world).world.calls =
        world.calls ++ [Call.find db (some env.NewObjectId) "-when" 1] ∧
      (handleUpdate env ResponseWriter.fresh r world).world.comments = world.comments) ∧
    (∀ (env : Env) (r : Request) (world : World) (db : Session),
      r.context "database" = some db →
      ((handleUpdate env ResponseWriter.fresh r world).w.status = some 400 ↔
        ∃ msg, env.decode r.Body = Except.error msg) ∧
      (handleUpdate env ResponseWriter.fresh r world).w.status ≠ some 307) := by
  refine ⟨rfl, rfl, rfl, rfl, rfl, rfl, rfl, ?_, ?_⟩
  · intro env r world db c0 hctx hdec
    rw [handleUpdate_decoded env _ r world db c0 hctx hdec]
    simp [ResponseWriter.fresh, World.logged]
  · intro env r world db hctx
    cases hdec : env.decode r.Body with
    | error msg =>
      have hres : handleUpdate env ResponseWriter.fresh r world =
          ⟨httpError ResponseWriter.fresh msg 400, world, none⟩ := by
        simp [handleUpdate, hctx, hdec]
      rw [hres, httpError_fresh]
      simp
    | ok c0 =>
      rw [handleUpdate_decoded env _ r world db c0 hctx hdec]
      simp [ResponseWriter.fresh]

/-! ## Read -/

theorem sortSpec_when : sortSpec "-when" = (true, "when") := by decide

theorem bsonField_when (c : comment) : bsonField c "when" = none := by
  simp [bsonField]

theorem sortsBefore_when (a b : comment) : sortsBefore "-when" a b = false := by
  simp [sortsBefore, sortSpec_when, bsonField_when, keyLt, keyRank]

theorem sortInsert_when (x : comment) (ys : List comment) :
    sortInsert "-when" x ys = x :: ys := by
  cases ys with
  | nil => rfl
  | cons y ys => simp [sortInsert, sortsBefore_when]

theorem sortDocs_when (docs : List comment) : sortDocs "-when" docs = docs := by
  induction docs with
  | nil => rfl
  | cons x xs ih => simp [sortDocs, ih, sortInsert_when]

theorem runFind_when (docs : List comment) :
    runFind docs none "-when" 100 = docs.take 100 := by
  have hall : docs.filter (selects none) = docs :=
    List.filter_eq_self.mpr (fun _ _ => rfl)
  simp [runFind, limitDocs, hall, sortDocs_when]

theorem handleRead_body (env : Env) (r : Request) (world : World) (cs : List comment)
    (h : Chunk.json cs ∈ (handleRead env ResponseWriter.fresh r world).w.body) :
    cs = runFind world.comments none "-when" 100 := by
  unfold handleRead at h
  cases hctx : r.context "database" with
  | none => simp [hctx, ResponseWriter.fresh] at h
  | some db =>
    simp only [hctx, FindAll] at h
    cases hf : env.fault (Call.find db none "-when" 100) with
    | some e => simp [hf, httpError_fresh] at h
    | none =>
      simp only [hf] at h
      cases he : env.encode (runFind world.comments none "-when" 100) with
      | ok => simpa [he, Write, WriteHeader, ResponseWriter.fresh] using h
      | marshalError e => simp [he, httpError_fresh] at h
      | writeError e =>
        simp [he, httpError, Write, WriteHeader, ResponseWriter.fresh] at h

/-- C5: the list handleRead writes as JSON never has more than 100 records:
it has exactly min(n, 100) of them, n the number of documents stored.  When
the session is there, the query does not fail and the answer can be written,
that list is written, with status 200. -/
theorem handleRead_limit (env : Env) (r : Request) (world : World) :
    (∀ cs, Chunk.json cs ∈ (handleRead env ResponseWriter.fresh r world).w.body →
      cs.length = min world.comments.length 100 ∧ cs.length ≤ 100) ∧
    (∀ db, r.context "database" = some db →
      env.fault (Call.find db none "-when" 100) = none →
      env.encode (runFind world.comments none "-when" 100) = EncodeOutcome.ok →
      (handleRead env ResponseWriter.fresh r world).w =
        ⟨some 200, none, [Chunk.json (runFind world.comments none "-when" 100)]⟩ ∧
      (runFind world.comments none "-when" 100).length = min world.comments.length 100) := by
  constructor
  · intro cs hcs
    rw [handleRead_body env r world cs hcs, runFind_when, List.length_take]
    omega
  · intro db hctx hf he
    constructor
    · simp [handleRead, hctx, FindAll, hf, he, Write, WriteHeader, ResponseWriter.fresh]
    · rw [runFind_when, List.length_take]
      omega

/-! ## The order of Read -/

theorem sortsBefore_update (a b : comment) :
    sortsBefore "-update" a b = decide (b.Update < a.Update) := by
  have hs : sortSpec "-update" = (true, "update") := by decide
  simp [sortsBefore, hs, bsonField, keyLt]

theorem mem_sortInsert (field : String) (x z : comment) (ys : List comment)
    (h : z ∈ sortInsert field x ys) : z = x ∨ z ∈ ys := by
  induction ys with
  | nil => simpa [sortInsert] using h
  | cons y ys ih =>
    unfold sortInsert at h
    split at h
    · rcases List.mem_cons.mp h with h1 | h1
      · exact Or.inr (h1 ▸ List.mem_cons_self _ _)
      · rcases ih h1 with h2 | h2
        · exact Or.inl h2
        · exact Or.inr (List.mem_cons_of_mem _ h2)
    · rcases List.mem_cons.mp h with h1 | h1
      · exact Or.inl h1
      · exact Or.inr h1

theorem sortInsert_update_sorted (x : comment) (ys : List comment)
    (h : List.Pairwise (fun a b : comment => b.Update ≤ a.Update) ys) :
    List.Pairwise (fun a b : comment => b.Update ≤ a.Update) (sortInsert "-update" x ys) := by
  induction ys with
  | nil => simp [sortInsert]
  | cons y ys ih =>
    obtain ⟨hy, hys⟩ := List.pairwise_cons.mp h
    unfold sortInsert
    by_cases hb : x.Update < y.Update
    · simp only [sortsBefore_update, hb, decide_True, if_true]
      refine List.pairwise_cons.mpr ⟨?_, ih hys⟩
      intro z hz
      rcases mem_sortInsert _ _ _ _ hz with h1 | h1
      · rw [h1]; exact Int.le_of_lt hb
      · exact hy z h1
    · simp only [sortsBefore_update, hb, decide_False]
      refine List.pairwise_cons.mpr ⟨?_, h⟩
      intro z hz
      rcases List.mem_cons.mp hz with h1 | h1
      · rw [h1]; exact Int.not_lt.mp hb
      · exact Int.le_trans (hy z h1) (Int.not_lt.mp hb)

/-- Sorted by "-update", the field the timestamp is stored under, the
documents come newest first. -/
theorem sortDocs_update_sorted (docs : List comment) :
    List.Pairwise (fun a b : comment => b.Update ≤ a.Update) (sortDocs "-update" docs) := by
  induction docs with
  | nil => simp [sortDocs]
  | cons x xs ih => exact sortInsert_update_sorted x _ ih

/-- C6, the code at a failing input: with two comments stored, the older one
first, handleRead answers them as stored, the older (update 100) before the
newer (update 200), so the answer is not sorted by update descending.  The
key of the query, "when", is no field of a stored comment and the order it
asks for ties all of them: the answer is always the first 100 documents in the
order they are stored.  Sorted by "-update" the same two come newest first. -/
theorem handleRead_order_at_failing_input :
    (handleRead sampleEnv ResponseWriter.fresh (sampleRequest "GET" "") sampleWorld).w =
      ⟨some 200, none, [Chunk.json [older, newer]]⟩ ∧
    older.Update < newer.Update ∧
    ¬ List.Pairwise (fun a b : comment => b.Update ≤ a.Update) [older, newer] ∧
    (∀ c : comment, bsonField c "when" = none ∧ bsonField c "update" = some (Key.date c.Update)) ∧
    (∀ docs : List comment, runFind docs none "-when" 100 = docs.take 100) ∧
    runFind [older, newer] none "-update" 100 = [newer, older] := by
  refine ⟨rfl, by decide, by decide, fun c => ⟨bsonField_when c, by simp [bsonField]⟩,
    runFind_when, rfl⟩

/-! ## The session middleware -/

theorem Insert_live (env : Env) (db : Session) (c : comment) (world : World) :
    (Insert env db c world).2.live = world.live := by
  unfold Insert
  cases env.fault (Call.insert db c) <;> simp [World.logged]
  split <;> rfl

theorem handleInsert_keeps (env : Env) : KeepsSessions (handleInsert env) := by
  intro w r x
  cases hctx : r.context "database" with
  | none => exact ⟨by simp [handleInsert, hctx], [], by simp [handleInsert, hctx]⟩
  | some db =>
    cases hdec : env.decode r.Body with
    | error e => exact ⟨by simp [handleInsert, hctx, hdec], [], by simp [handleInsert, hctx, hdec]⟩
    | ok c0 =>
      rw [handleInsert_decoded env w r x db c0 hctx hdec]
      have h1 := Insert_live env db ⟨env.NewObjectId, c0.Name, c0.Category, c0.Price, env.Now,
        c0.Quantity⟩ x
      have h2 := Insert_calls env db ⟨env.NewObjectId, c0.Name, c0.Category, c0.Price, env.Now,
        c0.Quantity⟩ x
      refine ⟨by split <;> simpa using h1, [Call.insert db ⟨env.NewObjectId, c0.Name,
        c0.Category, c0.Price, env.Now, c0.Quantity⟩], by split <;> simpa using h2, ?_⟩
      simp [Call.isStorage]

theorem handleDelete_keeps (env : Env) : KeepsSessions (handleDelete env) := by
  intro w r x
  cases hctx : r.context "database" with
  | none => exact ⟨by simp [handleDelete, hctx], [], by simp [handleDelete, hctx]⟩
  | some db =>
    cases hdec : env.decode r.Body with
    | error e => exact ⟨by simp [handleDelete, hctx, hdec], [], by simp [handleDelete, hctx, hdec]⟩
    | ok c0 =>
      rw [handleDelete_decoded env w r x db c0 hctx hdec]
      have h := DropIndexName_frame env db (ObjectIdString env.NewObjectId) x
      refine ⟨by split <;> simpa using h.2.2,
        [Call.dropIndexName db (ObjectIdString env.NewObjectId)],
        by split <;> simpa using h.2.1, ?_⟩
      simp [Call.isStorage]

theorem handleUpdate_keeps (env : Env) : KeepsSessions (handleUpdate env) := by
  intro w r x
  cases hctx : r.context "database" with
  | none => exact ⟨by simp [handleUpdate, hctx], [], by simp [handleUpdate, hctx]⟩
  | some db =>
    cases hdec : env.decode r.Body with
    | error e => exact ⟨by simp [handleUpdate, hctx, hdec], [], by simp [handleUpdate, hctx, hdec]⟩
    | ok c0 =>
      rw [handleUpdate_decoded env w r x db c0 hctx hdec]
      exact ⟨rfl, [Call.find db (some env.NewObjectId) "-when" 1], rfl,
        by simp [Call.isStorage]⟩

theorem handleRead_keeps (env : Env) : KeepsSessions (handleRead env) := by
  intro w r x
  cases hctx : r.context "database" with
  | none => exact ⟨by simp [handleRead, hctx], [], by simp [handleRead, hctx]⟩
  | some db =>
    refine ⟨?_, [Call.find db none "-when" 100], ?_, by simp [Call.isStorage]⟩
    · simp only [handleRead, hctx, FindAll]
      cases env.fault (Call.find db none "-when" 100) with
      | some e => simp [World.logged]
      | none =>
        cases he : env.encode (runFind x.comments none "-when" 100) <;>
          simp [he, World.logged]
    · simp only [handleRead, hctx, FindAll]
      cases env.fault (Call.find db none "-when" 100) with
      | some e => simp [World.logged]
      | none =>
        cases he : env.encode (runFind x.comments none "-when" 100) <;>
          simp [he, World.logged]

theorem handle_keeps (env : Env) : KeepsSessions (handle env) := by
  intro w r x
  unfold handle
  split
  · exact handleRead_keeps env w r x
  · split
    · exact handleInsert_keeps env w r x
    · split
      · exact handleUpdate_keeps env w r x
      · split
        · exact handleDelete_keeps env w r x
        · exact ⟨rfl, [], by simp⟩

/-- C7: the handler withDB(db) makes, for every handler h: it copies db once
(a new handle, not db, open, logged before anything h does), calls h once on
the request that holds this copy under "database", and closes this copy once
when h is done, passing on the response h wrote and the panic h ended with,
if any; the only call it adds after h is the close of the copy, never a close
of db.  If h itself leaves the handles alone, the calls of the request are the
copy, then the calls of h on the collection, then the close, the open handles
after the request are those before it, and db stays open. -/
theorem withDB_scoped (db : Session) (h : Handler) (w : ResponseWriter) (r : Request)
    (world : World)
    (hdb : db.handle < world.next)
    (hlive : ∀ s ∈ world.live, s.handle < world.next) :
    withDB db h w r world =
      { h w (contextSet r "database" ⟨world.next⟩) (Copy db world).2 with
        world := Close ⟨world.next⟩
          (h w (contextSet r "database" ⟨world.next⟩) (Copy db world).2).world } ∧
    (contextSet r "database" ⟨world.next⟩).context "database" = some ⟨world.next⟩ ∧
    (⟨world.next⟩ : Session) ≠ db ∧
    (⟨world.next⟩ : Session) ∉ world.live ∧
    (Copy db world).2.calls = world.calls ++ [Call.copy db ⟨world.next⟩] ∧
    (Copy db world).2.live = world.live ++ [⟨world.next⟩] ∧
    (Copy db world).2.comments = world.comments ∧
    (withDB db h w r world).w
      = (h w (contextSet r "database" ⟨world.next⟩) (Copy db world).2).w ∧
    (withDB db h w r world).panic
      = (h w (contextSet r "database" ⟨world.next⟩) (Copy db world).2).panic ∧
    (withDB db h w r world).world.calls
      = (h w (contextSet r "database" ⟨world.next⟩) (Copy db world).2).world.calls ++
        [Call.close ⟨world.next⟩] ∧
    (withDB db h w r world).world.live
      = List.erase (h w (contextSet r "database" ⟨world.next⟩) (Copy db world).2).world.live
        ⟨world.next⟩ ∧
    Call.close db ∉ [Call.copy db ⟨world.next⟩, Call.close ⟨world.next⟩] ∧
    (KeepsSessions h →
      (∃ cs, (withDB db h w r world).world.calls
          = world.calls ++ [Call.copy db ⟨world.next⟩] ++ cs ++ [Call.close ⟨world.next⟩] ∧
        ∀ c ∈ cs, c.isStorage = true) ∧
      (withDB db h w r world).world.live = world.live ∧
      (withDB db h w r world).world.live.length = world.live.length ∧
      (db ∈ world.live → db ∈ (withDB db h w r world).world.live)) := by
  have hne : (⟨world.next⟩ : Session) ≠ db := by
    intro heq
    rw [← heq] at hdb
    exact Nat.lt_irrefl _ hdb
  have hnot : (⟨world.next⟩ : Session) ∉ world.live := by
    intro hmem
    exact Nat.lt_irrefl _ (hlive _ hmem)
  refine ⟨rfl, contextSet_get _ _ _, hne, hnot, rfl, rfl, rfl, rfl, rfl, rfl, rfl, ?_, ?_⟩
  · simp only [List.mem_cons, List.mem_singleton, List.not_mem_nil, or_false, not_or]
    refine ⟨by simp, ?_⟩
    intro hc
    injection hc with hc
    exact hne hc.symm
  · intro hkeeps
    obtain ⟨hl, cs, hcs, hst⟩ :=
      hkeeps w (contextSet r "database" ⟨world.next⟩) (Copy db world).2
    have hfinal : (withDB db h w r world).world.live = world.live := by
      show List.erase (h w (contextSet r "database" ⟨world.next⟩) (Copy db world).2).world.live
        (Session.mk world.next) = world.live
      rw [hl]
      show List.erase (world.live ++ [Session.mk world.next]) (Session.mk world.next)
        = world.live
      rw [List.erase_append_right _ hnot]
      simp
    refine ⟨⟨cs, ?_, hst⟩, hfinal, by rw [hfinal], fun hmem => by rw [hfinal]; exact hmem⟩
    show (h w (contextSet r "database" ⟨world.next⟩) (Copy db world).2).world.calls ++
      [Call.close ⟨world.next⟩] = _
    rw [hcs]
    simp [Copy]

/-! ## The theorems at sample inputs -/

/-- Witness of C2: the cut-off body, sent to handleInsert and handleDelete. -/
theorem decode_failure_rejected_witness :
    (sampleRequest "POST" cutBody).context "database" = some ⟨1⟩ ∧
    sampleEnv.decode (sampleRequest "POST" cutBody).Body = Except.error "unexpected EOF" ∧
    (handleInsert sampleEnv ResponseWriter.fresh (sampleRequest "POST" cutBody)
      sampleWorld).w.status = some 400 ∧
    (handleDelete sampleEnv ResponseWriter.fresh (sampleRequest "POST" cutBody)
      sampleWorld).world.comments = [older, newer] :=
  ⟨rfl, rfl,
    ((decode_failure_rejected sampleEnv ResponseWriter.fresh (sampleRequest "POST" cutBody)
      sampleWorld ⟨1⟩ "unexpected EOF" rfl rfl).1 (handleInsert sampleEnv)
        (List.mem_cons_self _ _)).2.1,
    ((decode_failure_rejected sampleEnv ResponseWriter.fresh (sampleRequest "POST" cutBody)
      sampleWorld ⟨1⟩ "unexpected EOF" rfl rfl).1 (handleDelete sampleEnv)
        (by simp)).2.2.2.2.1⟩

/-- Witness of C3: the plain body is inserted and answered 307. -/
theorem handleInsert_spec_witness :
    sampleEnv.NewObjectId.length = 12 ∧
    (handleInsert sampleEnv ResponseWriter.fresh (sampleRequest "POST" plainBody) sampleWorld).w =
      ⟨some 307, some "/comments/58a10c073209c81f04000001", []⟩ ∧
    (handleInsert sampleEnv ResponseWriter.fresh (sampleRequest "POST" plainBody)
      sampleWorld).world.comments =
        [older, newer, ⟨sampleId, "cup", "kitchen", 5 / 2, 1000, 3⟩] :=
  ⟨rfl,
    ((handleInsert_spec sampleEnv (sampleRequest "POST" plainBody) sampleWorld ⟨1⟩
      ⟨[], "cup", "kitchen", 5 / 2, 0, 3⟩ rfl rfl rfl).2.2.1 (by decide)).1,
    ((handleInsert_spec sampleEnv (sampleRequest "POST" plainBody) sampleWorld ⟨1⟩
      ⟨[], "cup", "kitchen", 5 / 2, 0, 3⟩ rfl rfl rfl).2.2.1 (by decide)).2.2⟩

/-- Witness of C4, amended: the plain body and the body that carries an id
and an update get the same result. -/
theorem handleInsert_ignores_id_update_witness :
    sampleEnv.decode plainBody = Except.ok ⟨[], "cup", "kitchen", 5 / 2, 0, 3⟩ ∧
    sampleEnv.decode stampedBody = Except.ok ⟨clientId, "cup", "kitchen", 5 / 2, 77, 3⟩ ∧
    handleInsert sampleEnv ResponseWriter.fresh (sampleRequest "POST" plainBody) sampleWorld =
      handleInsert sampleEnv ResponseWriter.fresh (sampleRequest "POST" stampedBody)
        sampleWorld :=
  ⟨rfl, rfl,
    (handleInsert_ignores_id_update sampleEnv ResponseWriter.fresh (sampleRequest "POST" plainBody)
      (sampleRequest "POST" stampedBody) sampleWorld ⟨1⟩
      ⟨[], "cup", "kitchen", 5 / 2, 0, 3⟩ ⟨clientId, "cup", "kitchen", 5 / 2, 77, 3⟩
      rfl rfl rfl rfl rfl rfl rfl rfl).1⟩

/-- C4 as stated fails: `plainBody` and `numberIdBody` agree on name,
category, price and quantity and differ only in the id member, and
handleInsert, with the same generated id and clock, answers the first 307 and
inserts its record, and answers the second 400 with the decoder's message and
inserts nothing. -/
theorem handleInsert_id_value_rejected :
    (handleInsert sampleEnv ResponseWriter.fresh (sampleRequest "POST" plainBody) sampleWorld).w =
      ⟨some 307, some "/comments/58a10c073209c81f04000001", []⟩ ∧
    (handleInsert sampleEnv ResponseWriter.fresh (sampleRequest "POST" plainBody)
      sampleWorld).world.comments = [older, newer, ⟨sampleId, "cup", "kitchen", 5 / 2, 1000, 3⟩] ∧
    (handleInsert sampleEnv ResponseWriter.fresh (sampleRequest "POST" numberIdBody)
      sampleWorld).w = ⟨some 400, none, [Chunk.text "invalid ObjectId in JSON: 7\n"]⟩ ∧
    (handleInsert sampleEnv ResponseWriter.fresh (sampleRequest "POST" numberIdBody)
      sampleWorld).world.comments = [older, newer] ∧
    (handleInsert sampleEnv ResponseWriter.fresh (sampleRequest "POST" numberIdBody)
      sampleWorld).world.calls = [] :=
  ⟨rfl, rfl, rfl, rfl, rfl⟩

/-- Witness of C5: a collection of 150 documents, and one of two. -/
theorem handleRead_limit_witness :
    (∀ cs, Chunk.json cs ∈ (handleRead sampleEnv ResponseWriter.fresh (sampleRequest "GET" "")
        { sampleWorld with comments := List.replicate 150 older }).w.body → cs.length = 100) ∧
    (handleRead sampleEnv ResponseWriter.fresh (sampleRequest "GET" "") sampleWorld).w =
      ⟨some 200, none, [Chunk.json [older, newer]]⟩ :=
  ⟨fun cs hcs => by
      have h := ((handleRead_limit sampleEnv (sampleRequest "GET" "")
        { sampleWorld with comments := List.replicate 150 older }).1 cs hcs).1
      simpa using h,
    ((handleRead_limit sampleEnv (sampleRequest "GET" "") sampleWorld).2 ⟨1⟩ rfl rfl rfl).1⟩

/-- Witness of C9: no index of that name, then an index of that name: the
documents stay in both cases. -/
theorem handleDelete_spec_witness :
    (handleDelete sampleEnv ResponseWriter.fresh (sampleRequest "DELETE" plainBody)
      sampleWorld).world.comments = [older, newer] ∧
    (handleDelete sampleEnv ResponseWriter.fresh (sampleRequest "DELETE" plainBody)
      sampleWorld).world.calls =
        [Call.dropIndexName ⟨1⟩ "ObjectIdHex(\"58a10c073209c81f04000001\")"] ∧
    (handleDelete sampleEnv ResponseWriter.fresh (sampleRequest "DELETE" plainBody)
      sampleWorld).w = ⟨some 400, none, [Chunk.text "index not found\n"]⟩ ∧
    (handleDelete sampleEnv ResponseWriter.fresh (sampleRequest "DELETE" plainBody)
      { sampleWorld with indexes := ["ObjectIdHex(\"58a10c073209c81f04000001\")"] }).w =
        ⟨some 307, some "/comments/58a10c073209c81f04000001", []⟩ :=
  ⟨(handleDelete_spec sampleEnv (sampleRequest "DELETE" plainBody) sampleWorld).1 _,
    ((handleDelete_spec sampleEnv (sampleRequest "DELETE" plainBody) sampleWorld).2 ⟨1⟩
      ⟨[], "cup", "kitchen", 5 / 2, 0, 3⟩ rfl rfl).1,
    ((handleDelete_spec sampleEnv (sampleRequest "DELETE" plainBody) sampleWorld).2 ⟨1⟩
      ⟨[], "cup", "kitchen", 5 / 2, 0, 3⟩ rfl rfl).2.2.2.2.1 "index not found" (by decide),
    ((handleDelete_spec sampleEnv (sampleRequest "DELETE" plainBody)
      { sampleWorld with indexes := ["ObjectIdHex(\"58a10c073209c81f04000001\")"] }).2 ⟨1⟩
      ⟨[], "cup", "kitchen", 5 / 2, 0, 3⟩ rfl rfl).2.2.2.1 (by decide)⟩

/-- Witness of C7: a POST served by withDB around handle, as in `main`, and
a PUT, whose handler panics: the copy is closed in both cases. -/
theorem withDB_scoped_witness :
    (⟨0⟩ : Session).handle < idleWorld.next ∧
    (∀ s ∈ idleWorld.live, s.handle < idleWorld.next) ∧
    KeepsSessions (handle sampleEnv) ∧
    (withDB ⟨0⟩ (handle sampleEnv) ResponseWriter.fresh ⟨"POST", plainBody, fun _ => none⟩
      idleWorld).world.live = [⟨0⟩] ∧
    (withDB ⟨0⟩ (handle sampleEnv) ResponseWriter.fresh ⟨"POST", plainBody, fun _ => none⟩
      idleWorld).world.calls =
        [Call.copy ⟨0⟩ ⟨1⟩, Call.insert ⟨1⟩ ⟨sampleId, "cup", "kitchen", 5 / 2, 1000, 3⟩,
          Call.close ⟨1⟩] ∧
    (withDB ⟨0⟩ (handle sampleEnv) ResponseWriter.fresh ⟨"PUT", plainBody, fun _ => none⟩
      idleWorld).panic = some "result argument must be a slice address" ∧
    (withDB ⟨0⟩ (handle sampleEnv) ResponseWriter.fresh ⟨"PUT", plainBody, fun _ => none⟩
      idleWorld).world.live = [⟨0⟩] :=
  ⟨by decide, by decide, handle_keeps sampleEnv,
    ((withDB_scoped ⟨0⟩ (handle sampleEnv) ResponseWriter.fresh ⟨"POST", plainBody, fun _ => none⟩
      idleWorld (by decide) (by decide)).2.2.2.2.2.2.2.2.2.2.2.2 (handle_keeps sampleEnv)).2.1,
    rfl, rfl,
    ((withDB_scoped ⟨0⟩ (handle sampleEnv) ResponseWriter.fresh ⟨"PUT", plainBody, fun _ => none⟩
      idleWorld (by decide) (by decide)).2.2.2.2.2.2.2.2.2.2.2.2 (handle_keeps sampleEnv)).2.1⟩

end SalesManagement
